import Mathlib

/-!
Verification of the virtulab-chemistry-3d interaction layer.

This file gives a shallow embedding, over exact rationals, of the three core
subsystems of the repository: the reaction lookup table
(`src/data/reactionLogic.ts`), the drag-and-drop registry
(the `DragDropProvider` component), and the liquid particle simulator
(`src/physics/LiquidSystem.tsx`), together with the container volume update
of `src/components/lab/Beaker.tsx`.  JavaScript numbers are modelled as
rationals (`ℚ`); JS objects/Maps used as keyed dictionaries are modelled as
association lists with first-match lookup, where insertion prepends after
removing the old key (the overwrite semantics of `obj[k] = v` / `Map.set`).
-/

/-- A 3-component vector, mirroring `three.Vector3` with exact coordinates. -/
structure Vec3 where
  x : ℚ
  y : ℚ
  z : ℚ
deriving DecidableEq, Repr

def Vec3.add (a b : Vec3) : Vec3 := ⟨a.x + b.x, a.y + b.y, a.z + b.z⟩

def Vec3.sub (a b : Vec3) : Vec3 := ⟨a.x - b.x, a.y - b.y, a.z - b.z⟩

def Vec3.smul (c : ℚ) (a : Vec3) : Vec3 := ⟨c * a.x, c * a.y, c * a.z⟩

def Vec3.dot (a b : Vec3) : ℚ := a.x * b.x + a.y * b.y + a.z * b.z

/-- Squared Euclidean distance.  The source compares `Vector3.distanceTo`
(the square root of this) against a radius `r ≥ 0`; we compare this value
against `r^2`, which is equivalent. -/
def Vec3.distSq (a b : Vec3) : ℚ :=
  (a.x - b.x) ^ 2 + (a.y - b.y) ^ 2 + (a.z - b.z) ^ 2

/-! ## Reaction lookup (`src/data/reactionLogic.ts`) -/

/-- `ReactionEffect` from `reactionLogic.ts`: `{ type, intensity }`. -/
structure ReactionEffect where
  type : String
  intensity : ℚ
deriving DecidableEq, Repr

/-- `ReactionResult` from `reactionLogic.ts`: `{ outcomeText, effects }`. -/
structure ReactionResult where
  outcomeText : String
  effects : List ReactionEffect
deriving DecidableEq, Repr

/-- The fields of `Experiment` used by `generateReactionLogic`. -/
structure Experiment where
  id : String
  category : String
deriving DecidableEq, Repr

/-- ASCII lower-casing of one character, as JS `toLowerCase` acts on the
ASCII range (the only characters occurring in category comparisons). -/
def lowerChar (c : Char) : Char :=
  if 65 ≤ c.toNat ∧ c.toNat ≤ 90 then Char.ofNat (c.toNat + 32) else c

/-- Model of `String.prototype.toLowerCase()` on ASCII strings. -/
def jsToLowerCase (s : String) : String :=
  String.mk (s.data.map lowerChar)

/-- The body of the `switch (exp.category.toLowerCase())` statement in
`generateReactionLogic`: one fixed `ReactionResult` per category, with a
default case. -/
def categoryResult (category : String) : ReactionResult :=
  match jsToLowerCase category with
  | "acid-base" =>
      ⟨"Neutralization reaction occurred", [⟨"color-change", 8/10⟩]⟩
  | "precipitation" =>
      ⟨"Precipitation reaction occurred", [⟨"precipitation", 9/10⟩]⟩
  | "combustion" =>
      ⟨"Combustion reaction occurred", [⟨"heat-release", 1⟩]⟩
  | _ =>
      ⟨"Reaction occurred", [⟨"color-change", 7/10⟩]⟩

/-- `generateReactionLogic`: iterate over the experiments, assigning
`reactions[exp.id]` for each.  The JS object assignment overwrites earlier
entries with the same key; prepending combined with first-match lookup
(`List.lookup`) models exactly that. -/
def generateReactionLogic (experiments : List Experiment) :
    List (String × ReactionResult) :=
  experiments.foldl (fun reactions exp =>
    (exp.id, categoryResult exp.category) :: reactions) []

/-- `checkReactionTrigger`: returns `reactionLogic[experimentId]` when at
least two chemical ids are combined and the entry exists (a present entry is
an object, hence truthy in the source), otherwise `null`. -/
def checkReactionTrigger (chemicalIds : List String)
    (reactionLogic : List (String × ReactionResult))
    (experimentId : String) : Option ReactionResult :=
  if 2 ≤ chemicalIds.length then
    match reactionLogic.lookup experimentId with
    | some r => some r
    | none => none
  else none

example :
    (generateReactionLogic [⟨"e1", "Acid-Base"⟩]).lookup "e1" =
      some ⟨"Neutralization reaction occurred", [⟨"color-change", 8/10⟩]⟩ := rfl

example :
    checkReactionTrigger ["a"] (generateReactionLogic [⟨"e1", "acid-base"⟩])
      "e1" = none := rfl

/-! ## Drag-and-drop registry (`DragDropProvider`) -/

/-- The optional per-axis bounds of `DragObject.constraints`. -/
structure Constraints where
  minY : Option ℚ
  maxY : Option ℚ
  minX : Option ℚ
  maxX : Option ℚ
  minZ : Option ℚ
  maxZ : Option ℚ
deriving DecidableEq, Repr

/-- `DragObject` from the drag-drop provider.  The `object : Object3D`
reference is collapsed to its mutable `position`; `type` and
`initialPosition` are kept for completeness. -/
structure DragObject where
  id : String
  position : Vec3
  type : String
  initialPosition : Vec3
  isDraggable : Bool
  constraints : Option Constraints
deriving DecidableEq, Repr

/-- The constraint-application block of `endDrag`: six sequential in-place
clamps, each one only when the bound is configured —
`pos.y = Math.max(constraints.minY, pos.y)`, then
`pos.y = Math.min(constraints.maxY, pos.y)`, and likewise for x and z. -/
def applyConstraints (c : Constraints) (pos : Vec3) : Vec3 :=
  let y1 := match c.minY with | some m => max m pos.y | none => pos.y
  let y2 := match c.maxY with | some m => min m y1 | none => y1
  let x1 := match c.minX with | some m => max m pos.x | none => pos.x
  let x2 := match c.maxX with | some m => min m x1 | none => x1
  let z1 := match c.minZ with | some m => max m pos.z | none => pos.z
  let z2 := match c.maxZ with | some m => min m z1 | none => z1
  ⟨x2, y2, z2⟩

/-- The drag-selection state of the provider: the `draggedObject` and
`isDragging` pieces of React state. -/
structure DragState where
  draggedObject : Option DragObject
  isDragging : Bool
deriving DecidableEq, Repr

/-- `endDrag`: if an object is dragged and has constraints, clamp its
position axis by axis; then clear `draggedObject` and `isDragging`.  The
position mutation happens on the shared `Object3D`, so the updated object is
returned alongside the cleared state. -/
def endDrag (s : DragState) : DragState × Option DragObject :=
  match s.draggedObject with
  | some d =>
      let dFinal :=
        match d.constraints with
        | some c => { d with position := applyConstraints c d.position }
        | none => d
      (⟨none, false⟩, some dFinal)
  | none => (⟨none, false⟩, none)

/-- A ray as in `three.Ray`: an origin and a direction. -/
structure Ray where
  origin : Vec3
  dir : Vec3
deriving DecidableEq, Repr

/-- A plane as in `three.Plane`: unit normal and signed constant. -/
structure Plane where
  normal : Vec3
  constant : ℚ
deriving DecidableEq, Repr

/-- `three.Plane.distanceToPoint`: `normal ⬝ p + constant`. -/
def Plane.distanceToPoint (pl : Plane) (p : Vec3) : ℚ :=
  Vec3.dot pl.normal p + pl.constant

/-- `three.Plane.setFromNormalAndCoplanarPoint`: normal `n`, constant
`-(p ⬝ n)`. -/
def planeFromNormalAndCoplanarPoint (n p : Vec3) : Plane :=
  ⟨n, -(Vec3.dot p n)⟩

/-- `three.Ray.at`: `origin + t * dir`. -/
def Ray.at (r : Ray) (t : ℚ) : Vec3 :=
  Vec3.add r.origin (Vec3.smul t r.dir)

/-- `three.Ray.distanceToPlane`: `none` when the ray is parallel to the
plane and does not lie in it, or when the intersection parameter is
negative (plane behind the origin); otherwise the parameter `t ≥ 0`. -/
def Ray.distanceToPlane (r : Ray) (pl : Plane) : Option ℚ :=
  let denominator := Vec3.dot pl.normal r.dir
  if denominator = 0 then
    if pl.distanceToPoint r.origin = 0 then some 0 else none
  else
    let t := -(Vec3.dot r.origin pl.normal + pl.constant) / denominator
    if 0 ≤ t then some t else none

/-- `three.Ray.intersectPlane(plane, target)`: writes `ray.at t` into
`target` and returns it, or returns `null` leaving `target` untouched. -/
def Ray.intersectPlane (r : Ray) (pl : Plane) : Option Vec3 :=
  (r.distanceToPlane pl).map r.at

/-- The drag branch of `handleMouseMove`.  The source allocates
`const intersection = new Vector3()` (zero-initialised), calls
`ray.intersectPlane(plane, intersection)` ignoring the returned value, and
copies `intersection` into the dragged object's position unless a component
is `NaN`.  Over exact rationals no `NaN` arises, so the copy is
unconditional; when `intersectPlane` returns `null` the untouched buffer
`(0,0,0)` is what gets copied.  The drag plane has normal
`(0,0,1).applyQuaternion(camera.quaternion)` (abstracted here as an
arbitrary normal `n`) and passes through `(0, dragPlaneY, 0)` with
`dragPlaneY = 1`. -/
def updateDragPosition (ray : Ray) (n : Vec3) (_pos : Vec3) : Vec3 :=
  let plane := planeFromNormalAndCoplanarPoint n ⟨0, 1, 0⟩
  let intersection :=
    match ray.intersectPlane plane with
    | some p => p
    | none => ⟨0, 0, 0⟩
  intersection

/-- `registerObject`: `Map.set(object.id, object)` — overwrite any existing
entry for the id, keeping one entry per key. -/
def registerObject (reg : List (String × DragObject)) (o : DragObject) :
    List (String × DragObject) :=
  (o.id, o) :: reg.filter (fun p => p.1 ≠ o.id)

/-- `unregisterObject`: `Map.delete(id)` — removes the entry for `id` when
present, otherwise leaves the map unchanged (never errors). -/
def unregisterObject (reg : List (String × DragObject)) (id : String) :
    List (String × DragObject) :=
  reg.filter (fun p => p.1 ≠ id)

/-- `getIntersection` followed by the owner search of
`handleMouseDown`/`handleMouseMove`: the pointer ray is cast against the
geometry of every registered handle only (`intersectObjects` over
`registeredObjects.values()`), and the nearest hit's owning handle is
returned.  The geometric raycast itself is abstracted as an oracle
`hit` giving the distance at which the ray strikes a handle's geometry,
`none` on a miss. -/
def chooseNearest (best : Option (ℚ × DragObject)) (h : ℚ × DragObject) :
    Option (ℚ × DragObject) :=
  match best with
  | none => some h
  | some b => if h.1 < b.1 then some h else some b

def resolvePointer (hit : DragObject → Option ℚ)
    (reg : List (String × DragObject)) : Option DragObject :=
  let hits := reg.filterMap (fun p => (hit p.2).map (fun d => (d, p.2)))
  (hits.foldl chooseNearest none).map (fun h => h.2)

/-! ## Liquid particle simulator (`src/physics/LiquidSystem.tsx`) -/

/-- `LiquidParticle`. -/
structure LiquidParticle where
  id : String
  position : Vec3
  velocity : Vec3
  color : String
  size : ℚ
  lifetime : ℚ
  age : ℚ
  isPouring : Bool
deriving DecidableEq, Repr

/-- `LiquidStream`. -/
structure LiquidStream where
  id : String
  sourcePosition : Vec3
  targetPosition : Vec3
  particles : List LiquidParticle
  isActive : Bool
  flowRate : ℚ
  color : String
deriving DecidableEq, Repr

/-- The velocity a stream particle carries after one step of the `useFrame`
body: `newVelocity = velocity + gravity * delta`. -/
def streamStepVelocity (gravity : Vec3) (delta : ℚ) (p : LiquidParticle) :
    Vec3 :=
  Vec3.add p.velocity (Vec3.smul delta gravity)

/-- The position a stream particle reaches after one step:
`newPosition = position + newVelocity * delta`. -/
def streamStepPosition (gravity : Vec3) (delta : ℚ) (p : LiquidParticle) :
    Vec3 :=
  Vec3.add p.position (Vec3.smul delta (streamStepVelocity gravity delta p))

/-- The per-particle body of the stream update in `useFrame`: integrate
gravity and position, drop the particle when the new position is within
`0.1` of the stream target (the splash side effect does not alter
retirement) or when the new age exceeds the lifetime; otherwise return the
particle with updated position, velocity and age.  `null` results are
filtered out of the population. -/
def updateStreamParticle (gravity : Vec3) (delta : ℚ) (target : Vec3)
    (p : LiquidParticle) : Option LiquidParticle :=
  let newVelocity := streamStepVelocity gravity delta p
  let newPosition := streamStepPosition gravity delta p
  if Vec3.distSq newPosition target < 1/100 then
    none
  else
    let newAge := p.age + delta
    if p.lifetime < newAge then
      none
    else
      some { p with position := newPosition, velocity := newVelocity,
                    age := newAge }

/-- One `useFrame` step over a single stream.  The guard returns an inactive
stream with no particles unchanged; otherwise, when the stream is active and
below the per-stream particle budget (`maxParticles / 10`), the freshly
spawned batch (`Math.floor(flowRate * delta * 5)` particles at random
offsets — abstracted as the parameter `spawned`) is appended, and every
particle is advanced by `updateStreamParticle`. -/
def stepStream (gravity : Vec3) (delta : ℚ) (maxParticles : ℕ)
    (spawned : List LiquidParticle) (s : LiquidStream) : LiquidStream :=
  if !s.isActive ∧ s.particles.length = 0 then
    s
  else
    let withNew :=
      if s.isActive ∧ s.particles.length < maxParticles / 10 then
        s.particles ++ spawned
      else s.particles
    { s with particles :=
        withNew.filterMap (updateStreamParticle gravity delta
          s.targetPosition) }

/-- The `setStreams(prev => prev.map(...))` pass of `useFrame`: every stream
is stepped in place; no stream is ever filtered out here.  `spawnFor` gives
each stream its randomly generated spawn batch. -/
def stepStreams (gravity : Vec3) (delta : ℚ) (maxParticles : ℕ)
    (spawnFor : LiquidStream → List LiquidParticle)
    (streams : List LiquidStream) : List LiquidStream :=
  streams.map (fun s => stepStream gravity delta maxParticles (spawnFor s) s)

/-- Splash velocity after gravity (`gravity * delta * 1.5`) and damping
(`* 0.98`). -/
def splashStepVelocity (gravity : Vec3) (delta : ℚ) (p : LiquidParticle) :
    Vec3 :=
  Vec3.smul (98/100) (Vec3.add p.velocity (Vec3.smul (delta * (3/2)) gravity))

/-- Splash position after integration: `position + newVelocity * delta`. -/
def splashStepPosition (gravity : Vec3) (delta : ℚ) (p : LiquidParticle) :
    Vec3 :=
  Vec3.add p.position (Vec3.smul delta (splashStepVelocity gravity delta p))

/-- The per-particle body of the splash update in `useFrame`: gravity at
1.5×, damping `0.98`, integration, then ground contact — when the new `y`
is below `0`, it is clamped to `0`, the `y`-velocity zeroed and the whole
velocity halved — and finally age-based retirement. -/
def updateSplashParticle (gravity : Vec3) (delta : ℚ)
    (p : LiquidParticle) : Option LiquidParticle :=
  let newVelocity := splashStepVelocity gravity delta p
  let newPosition := splashStepPosition gravity delta p
  let grounded := newPosition.y < 0
  let finalPosition := if grounded then { newPosition with y := 0 }
    else newPosition
  let finalVelocity := if grounded then
      Vec3.smul (1/2) { newVelocity with y := 0 }
    else newVelocity
  let newAge := p.age + delta
  if p.lifetime < newAge then
    none
  else
    some { p with position := finalPosition, velocity := finalVelocity,
                  age := newAge }

/-- The `setSplashParticles(prev => prev.map(...).filter(...))` pass of
`useFrame`. -/
def stepSplashParticles (gravity : Vec3) (delta : ℚ)
    (particles : List LiquidParticle) : List LiquidParticle :=
  particles.filterMap (updateSplashParticle gravity delta)

/-- The synchronous pass of `stopPour`: mark the stream with the given id
inactive (`prev.map`, all other streams untouched). -/
def markStreamInactive (streamId : String) (streams : List LiquidStream) :
    List LiquidStream :=
  streams.map (fun s =>
    if s.id = streamId then { s with isActive := false } else s)

/-- The delayed pass of `stopPour` (a 3000 ms `setTimeout`):
`prev.filter(stream => stream.id !== streamId)`. -/
def removeStream (streamId : String) (streams : List LiquidStream) :
    List LiquidStream :=
  streams.filter (fun s => s.id ≠ streamId)

/-! ## Container volume (`src/components/lab/Beaker.tsx`) -/

/-- `handlePourEnd`: `newVolume = Math.max(0, currentVolume - pouredVolume)`;
the new volume becomes the current volume. -/
def handlePourEnd (currentVolume pouredVolume : ℚ) : ℚ :=
  max 0 (currentVolume - pouredVolume)

/-! ## Helper lemmas -/

lemma generateReactionLogic_eq (exps : List Experiment) :
    generateReactionLogic exps =
      exps.reverse.map (fun e => (e.id, categoryResult e.category)) := by
  have aux : ∀ (l : List Experiment) (acc : List (String × ReactionResult)),
      l.foldl (fun r e => (e.id, categoryResult e.category) :: r) acc =
        l.reverse.map (fun e => (e.id, categoryResult e.category)) ++ acc := by
    intro l
    induction l with
    | nil => intro acc; simp
    | cons e t ih => intro acc; simp [List.foldl_cons, ih]
  simpa [generateReactionLogic] using aux exps []

lemma lookup_eq_of_nodup_keys {β : Type} (l : List (String × β)) (k : String)
    (v : β) (hn : (l.map Prod.fst).Nodup) (hm : (k, v) ∈ l) :
    l.lookup k = some v := by
  induction l with
  | nil => cases hm
  | cons p t ih =>
      simp only [List.map_cons, List.nodup_cons] at hn
      rcases List.mem_cons.mp hm with h | h
      · cases h
        simp [List.lookup]
      · have hk : k ≠ p.1 := by
          intro e
          exact hn.1 (e ▸ List.mem_map.mpr ⟨(k, v), h, rfl⟩)
        cases p with
        | mk k1 v1 =>
            have : (k == k1) = false := by
              simpa using hk
            simp [List.lookup, this]
            exact ih hn.2 h

lemma lookup_eq_none_of_no_key {β : Type} (l : List (String × β)) (k : String)
    (h : ∀ p ∈ l, p.1 ≠ k) : l.lookup k = none := by
  induction l with
  | nil => rfl
  | cons p t ih =>
      cases p with
      | mk k1 v1 =>
          have hk : (k == k1) = false := by
            simpa using fun e => h (k1, v1) (List.mem_cons_self _ _) e.symm
          simp [List.lookup, hk]
          intro a b hab e
          exact h (a, b) (List.mem_cons_of_mem _ hab) e.symm

lemma categoryResult_eq_table (c : String) :
    categoryResult c =
      (if jsToLowerCase c = "acid-base" then
        ⟨"Neutralization reaction occurred", [⟨"color-change", 8/10⟩]⟩
      else if jsToLowerCase c = "precipitation" then
        ⟨"Precipitation reaction occurred", [⟨"precipitation", 9/10⟩]⟩
      else if jsToLowerCase c = "combustion" then
        ⟨"Combustion reaction occurred", [⟨"heat-release", 1⟩]⟩
      else
        ⟨"Reaction occurred", [⟨"color-change", 7/10⟩]⟩ : ReactionResult) := by
  unfold categoryResult
  split <;> simp_all

/-! ## Claim theorems -/

/-- C1 (amended: the experiment ids must be pairwise distinct; a duplicated
id is overwritten by the later experiment): for every list of experiments
with pairwise-distinct ids, `generateReactionLogic` maps each experiment's
id to the fixed result determined case-insensitively by its category —
`acid-base` yields "Neutralization reaction occurred" with
(color-change, 0.8), `precipitation` yields "Precipitation reaction
occurred" with (precipitation, 0.9), `combustion` yields "Combustion
reaction occurred" with (heat-release, 1.0), and every other category
yields "Reaction occurred" with (color-change, 0.7). -/
theorem generateReactionLogic_category_table (experiments : List Experiment)
    (hnodup : (experiments.map Experiment.id).Nodup)
    (exp : Experiment) (hmem : exp ∈ experiments) :
    (generateReactionLogic experiments).lookup exp.id =
      some (if jsToLowerCase exp.category = "acid-base" then
        ⟨"Neutralization reaction occurred", [⟨"color-change", 8/10⟩]⟩
      else if jsToLowerCase exp.category = "precipitation" then
        ⟨"Precipitation reaction occurred", [⟨"precipitation", 9/10⟩]⟩
      else if jsToLowerCase exp.category = "combustion" then
        ⟨"Combustion reaction occurred", [⟨"heat-release", 1⟩]⟩
      else
        ⟨"Reaction occurred", [⟨"color-change", 7/10⟩]⟩) := by
  rw [← categoryResult_eq_table, generateReactionLogic_eq]
  apply lookup_eq_of_nodup_keys
  · rw [List.map_map, List.map_reverse]
    exact List.nodup_reverse.mpr hnodup
  · exact List.mem_map.mpr ⟨exp, List.mem_reverse.mpr hmem, rfl⟩

/-- Witness for the C1 theorem at a concrete two-experiment catalog. -/
theorem generateReactionLogic_category_table_witness :
    ((([⟨"e1", "Acid-Base"⟩, ⟨"e2", "mystery"⟩] : List Experiment).map
        Experiment.id).Nodup) ∧
    (generateReactionLogic
        [⟨"e1", "Acid-Base"⟩, ⟨"e2", "mystery"⟩]).lookup "e1" =
      some ⟨"Neutralization reaction occurred", [⟨"color-change", 8/10⟩]⟩ :=
  ⟨by decide, by
    have h := generateReactionLogic_category_table
      [⟨"e1", "Acid-Base"⟩, ⟨"e2", "mystery"⟩] (by decide)
      ⟨"e1", "Acid-Base"⟩ (by decide)
    exact h.trans (by rfl)⟩

/-- C1 counterexample: with a duplicated experiment id the later experiment
overwrites the earlier one, so the first experiment's id is not mapped to
its own category's result — the claim fails for the list
`[{id e1, acid-base}, {id e1, combustion}]`. -/
theorem generateReactionLogic_duplicate_id_override :
    ¬ (∀ (experiments : List Experiment), ∀ exp ∈ experiments,
        (generateReactionLogic experiments).lookup exp.id =
          some (categoryResult exp.category)) := by
  intro h
  have h1 := h [⟨"e1", "acid-base"⟩, ⟨"e1", "combustion"⟩]
    ⟨"e1", "acid-base"⟩ (by decide)
  have h2 := congrArg (fun o => Option.map ReactionResult.outcomeText o) h1
  exact absurd h2 (by decide)

lemma checkReactionTrigger_eq (chemicalIds : List String)
    (logic : List (String × ReactionResult)) (experimentId : String) :
    checkReactionTrigger chemicalIds logic experimentId =
      if 2 ≤ chemicalIds.length then logic.lookup experimentId else none := by
  unfold checkReactionTrigger
  split_ifs
  · cases hl : logic.lookup experimentId <;> simp [hl]
  · rfl

/-- C2: `checkReactionTrigger` returns the stored `ReactionResult` for
`experimentId` if and only if at least two chemical ids are combined and
the map stores a result for that id; in every other case it returns
nothing. -/
theorem checkReactionTrigger_iff (chemicalIds : List String)
    (logic : List (String × ReactionResult)) (experimentId : String) :
    (∀ r, checkReactionTrigger chemicalIds logic experimentId = some r ↔
      (2 ≤ chemicalIds.length ∧ logic.lookup experimentId = some r)) ∧
    (¬ (2 ≤ chemicalIds.length ∧ (logic.lookup experimentId).isSome) →
      checkReactionTrigger chemicalIds logic experimentId = none) := by
  rw [checkReactionTrigger_eq]
  constructor
  · intro r
    split_ifs with h
    · simp [h]
    · simp [h]
  · intro hno
    split_ifs with h
    · cases hl : logic.lookup experimentId with
      | none => rfl
      | some v => exact absurd ⟨h, by simp [hl]⟩ hno
    · rfl

/-- Witness for the C2 theorem: two chemicals and a stored entry yield the
stored result. -/
theorem checkReactionTrigger_iff_witness :
    checkReactionTrigger ["a", "b"]
      [("e1", ⟨"Reaction occurred", [⟨"color-change", 7/10⟩]⟩)] "e1" =
      some ⟨"Reaction occurred", [⟨"color-change", 7/10⟩]⟩ :=
  ((checkReactionTrigger_iff ["a", "b"]
      [("e1", ⟨"Reaction occurred", [⟨"color-change", 7/10⟩]⟩)] "e1").1
    _).mpr ⟨by decide, rfl⟩

/-- The scalar behaviour of one axis of `applyConstraints`: optional lower
bound applied by `max`, then optional upper bound applied by `min`. -/
def axisClamp (lo hi : Option ℚ) (v : ℚ) : ℚ :=
  match hi with
  | some b => min b (match lo with | some a => max a v | none => v)
  | none => match lo with | some a => max a v | none => v

lemma applyConstraints_eq_axisClamp (c : Constraints) (pos : Vec3) :
    applyConstraints c pos =
      ⟨axisClamp c.minX c.maxX pos.x, axisClamp c.minY c.maxY pos.y,
        axisClamp c.minZ c.maxZ pos.z⟩ := by
  obtain ⟨mY, MY, mX, MX, mZ, MZ⟩ := c
  cases mY <;> cases MY <;> cases mX <;> cases MX <;> cases mZ <;> cases MZ <;>
    rfl

lemma axisClamp_ge_lo (lo hi : Option ℚ) (v a : ℚ) (hlo : lo = some a)
    (hcons : ∀ b, hi = some b → a ≤ b) : a ≤ axisClamp lo hi v := by
  subst hlo
  cases hi with
  | none => exact le_max_left a v
  | some b => exact le_min (hcons b rfl) (le_max_left a v)

lemma axisClamp_le_hi (lo hi : Option ℚ) (v b : ℚ) (hhi : hi = some b) :
    axisClamp lo hi v ≤ b := by
  subst hhi
  cases lo with
  | none => exact min_le_left b v
  | some a => exact min_le_left b (max a v)

lemma axisClamp_none (v : ℚ) : axisClamp none none v = v := rfl

/-- C3 (amended: on an axis where both a minimum and a maximum are
configured, the minimum must not exceed the maximum — the source applies
`max` with the minimum first and `min` with the maximum second, so crossed
bounds land on the maximum, below the configured minimum): for every
dragged handle with configured constraints whose per-axis bounds are
consistent, end-drag leaves the final position within each configured
bound, leaves axes without any configured bound unchanged, and clears the
dragged reference. -/
theorem endDrag_clamps_into_bounds (s : DragState) (d : DragObject)
    (c : Constraints)
    (hd : s.draggedObject = some d) (hc : d.constraints = some c)
    (hY : ∀ a b, c.minY = some a → c.maxY = some b → a ≤ b)
    (hX : ∀ a b, c.minX = some a → c.maxX = some b → a ≤ b)
    (hZ : ∀ a b, c.minZ = some a → c.maxZ = some b → a ≤ b) :
    (endDrag s).1.draggedObject = none ∧
    (endDrag s).1.isDragging = false ∧
    (endDrag s).2 = some { d with position := applyConstraints c d.position } ∧
    (∀ m, c.minY = some m → m ≤ (applyConstraints c d.position).y) ∧
    (∀ m, c.maxY = some m → (applyConstraints c d.position).y ≤ m) ∧
    (∀ m, c.minX = some m → m ≤ (applyConstraints c d.position).x) ∧
    (∀ m, c.maxX = some m → (applyConstraints c d.position).x ≤ m) ∧
    (∀ m, c.minZ = some m → m ≤ (applyConstraints c d.position).z) ∧
    (∀ m, c.maxZ = some m → (applyConstraints c d.position).z ≤ m) ∧
    (c.minY = none → c.maxY = none →
      (applyConstraints c d.position).y = d.position.y) ∧
    (c.minX = none → c.maxX = none →
      (applyConstraints c d.position).x = d.position.x) ∧
    (c.minZ = none → c.maxZ = none →
      (applyConstraints c d.position).z = d.position.z) := by
  rw [applyConstraints_eq_axisClamp]
  refine ⟨by simp [endDrag, hd, hc], by simp [endDrag, hd, hc],
    by simp [endDrag, hd, hc, applyConstraints_eq_axisClamp], ?_, ?_, ?_, ?_,
    ?_, ?_, ?_, ?_, ?_⟩
  · exact fun m hm => axisClamp_ge_lo _ _ _ _ hm (fun b hb => hY m b hm hb)
  · exact fun m hm => axisClamp_le_hi _ _ _ _ hm
  · exact fun m hm => axisClamp_ge_lo _ _ _ _ hm (fun b hb => hX m b hm hb)
  · exact fun m hm => axisClamp_le_hi _ _ _ _ hm
  · exact fun m hm => axisClamp_ge_lo _ _ _ _ hm (fun b hb => hZ m b hm hb)
  · exact fun m hm => axisClamp_le_hi _ _ _ _ hm
  · intro h1 h2; rw [h1, h2]; rfl
  · intro h1 h2; rw [h1, h2]; rfl
  · intro h1 h2; rw [h1, h2]; rfl

/-- C3 counterexample: a handle with crossed bounds `minY = 2 > 1 = maxY`
released at `y = 5` ends at `y = 1`, below its configured minimum — the
claim as stated fails on this input. -/
theorem endDrag_crossed_bounds_counterexample :
    ((endDrag ⟨some ⟨"h1", ⟨0, 5, 0⟩, "equipment", ⟨0, 0, 0⟩, true,
        some ⟨some 2, some 1, none, none, none, none⟩⟩, true⟩).2.map
      (fun d => d.position.y)) = some 1 ∧ ¬ ((2 : ℚ) ≤ 1) := by
  constructor
  · simp [endDrag, applyConstraints]
  · norm_num

/-- Witness for the C3 theorem: the spec's own example — a handle with
`minY = 0.5` released at `y = -3` ends with `y ≥ 0.5`. -/
theorem endDrag_clamps_into_bounds_witness :
    (endDrag ⟨some ⟨"h1", ⟨0, -3, 0⟩, "equipment", ⟨0, 0, 0⟩, true,
        some ⟨some (1/2), none, none, none, none, none⟩⟩,
      true⟩).1.draggedObject = none ∧
    (1 : ℚ)/2 ≤ (applyConstraints ⟨some (1/2), none, none, none, none, none⟩
      ⟨0, -3, 0⟩).y := by
  have h := endDrag_clamps_into_bounds
    ⟨some ⟨"h1", ⟨0, -3, 0⟩, "equipment", ⟨0, 0, 0⟩, true,
      some ⟨some (1/2), none, none, none, none, none⟩⟩, true⟩
    ⟨"h1", ⟨0, -3, 0⟩, "equipment", ⟨0, 0, 0⟩, true,
      some ⟨some (1/2), none, none, none, none, none⟩⟩
    ⟨some (1/2), none, none, none, none, none⟩ rfl rfl
    (fun _ _ _ hb => nomatch hb) (fun _ _ ha _ => nomatch ha)
    (fun _ _ ha _ => nomatch ha)
  exact ⟨h.1, h.2.2.2.1 (1/2) rfl⟩

/-- C4 (code bug): the source guards the drag update only with an
`isNaN` test on a zero-initialised buffer.  When the pointer ray is
parallel to the drag plane, `intersectPlane` produces no intersection and
leaves the buffer at `(0,0,0)`, which is not NaN — so instead of skipping
the frame and leaving the dragged object stationary, the code copies the
origin into the object's position.  Concretely: ray from `(0,0,5)` along
`(1,0,0)` against the plane with normal `(0,0,1)` has no intersection, yet
the dragged object at `(2,3,4)` is moved to `(0,0,0)`. -/
theorem updateDragPosition_parallel_ray_not_skipped :
    Ray.intersectPlane ⟨⟨0, 0, 5⟩, ⟨1, 0, 0⟩⟩
      (planeFromNormalAndCoplanarPoint ⟨0, 0, 1⟩ ⟨0, 1, 0⟩) = none ∧
    updateDragPosition ⟨⟨0, 0, 5⟩, ⟨1, 0, 0⟩⟩ ⟨0, 0, 1⟩ ⟨2, 3, 4⟩ =
      ⟨0, 0, 0⟩ ∧
    (⟨2, 3, 4⟩ : Vec3) ≠ ⟨0, 0, 0⟩ := by
  refine ⟨?_, ?_, ?_⟩
  · norm_num [Ray.intersectPlane, Ray.distanceToPlane,
      planeFromNormalAndCoplanarPoint, Plane.distanceToPoint, Vec3.dot]
  · norm_num [updateDragPosition, Ray.intersectPlane, Ray.distanceToPlane,
      planeFromNormalAndCoplanarPoint, Plane.distanceToPoint, Vec3.dot]
  · simp [Vec3.mk.injEq]

lemma foldl_handlePourEnd_invariant (maxVolume : ℚ) :
    ∀ (pours : List ℚ) (current : ℚ), 0 ≤ current → current ≤ maxVolume →
      (∀ q ∈ pours, 0 ≤ q) →
      0 ≤ pours.foldl handlePourEnd current ∧
      pours.foldl handlePourEnd current ≤ maxVolume := by
  intro pours
  induction pours with
  | nil => intro c h0 hm _; simpa using ⟨h0, hm⟩
  | cons q t ih =>
      intro c h0 hm hq
      have hq0 : 0 ≤ q := hq q (List.mem_cons_self _ _)
      have h1 : 0 ≤ handlePourEnd c q := le_max_left 0 _
      have h2 : handlePourEnd c q ≤ maxVolume := by
        unfold handlePourEnd
        exact max_le (by linarith) (by linarith)
      simpa [List.foldl_cons] using
        ih (handlePourEnd c q) h1 h2
          (fun r hr => hq r (List.mem_cons_of_mem _ hr))

/-- C5: for a container volume state with `0 ≤ current ≤ max` and a
pour-end with `poured ≥ 0`, the updated volume equals
`clamp(current − poured, 0, max)`, and after any sequence of pour-end
events with non-negative poured amounts the volume stays within `[0, max]`. -/
theorem handlePourEnd_clamp_invariant (current maxVolume poured : ℚ)
    (h0 : 0 ≤ current) (hmax : current ≤ maxVolume) (hp : 0 ≤ poured) :
    handlePourEnd current poured =
      max 0 (min (current - poured) maxVolume) ∧
    (∀ pours : List ℚ, (∀ q ∈ pours, 0 ≤ q) →
      0 ≤ pours.foldl handlePourEnd current ∧
      pours.foldl handlePourEnd current ≤ maxVolume) := by
  constructor
  · rw [min_eq_left (by linarith)]
    rfl
  · exact fun pours hq => foldl_handlePourEnd_invariant maxVolume pours
      current h0 hmax hq

/-- Witness for the C5 theorem: a 250 mL beaker at 50 mL pouring 2 mL. -/
theorem handlePourEnd_clamp_invariant_witness :
    (0 : ℚ) ≤ 50 ∧ (50 : ℚ) ≤ 250 ∧ (0 : ℚ) ≤ 2 ∧
    (handlePourEnd 50 2 = max 0 (min (50 - 2) 250) ∧
      (∀ pours : List ℚ, (∀ q ∈ pours, 0 ≤ q) →
        0 ≤ pours.foldl handlePourEnd 50 ∧
        pours.foldl handlePourEnd 50 ≤ 250)) :=
  ⟨by norm_num, by norm_num, by norm_num,
    handlePourEnd_clamp_invariant 50 250 2 (by norm_num) (by norm_num)
      (by norm_num)⟩

lemma stepStream_particles_eq (gravity : Vec3) (delta : ℚ)
    (maxParticles : ℕ) (spawned : List LiquidParticle) (s : LiquidStream)
    (hne : s.particles ≠ []) :
    (stepStream gravity delta maxParticles spawned s).particles =
      (if s.isActive ∧ s.particles.length < maxParticles / 10 then
          s.particles ++ spawned
        else s.particles).filterMap
        (updateStreamParticle gravity delta s.targetPosition) := by
  unfold stepStream
  rw [if_neg]
  intro hc
  exact hne (List.length_eq_zero.mp hc.2)

/-- C6: in one simulation step of duration `delta`, a particle of a stream's
population is retired — mapped to `none` and hence absent from the stepped
population — exactly when its updated position comes within the capture
radius 0.1 of the stream's target or its updated age exceeds its lifetime
(for splash particles, exactly when the updated age exceeds the lifetime);
otherwise it survives into the stepped population with its age increased by
`delta`. -/
theorem streamParticle_retirement (gravity : Vec3) (delta : ℚ)
    (maxParticles : ℕ) (spawned : List LiquidParticle) (s : LiquidStream)
    (p : LiquidParticle) (hp : p ∈ s.particles) :
    (updateStreamParticle gravity delta s.targetPosition p = none ↔
      (Vec3.distSq (streamStepPosition gravity delta p) s.targetPosition
          < 1/100 ∨ p.lifetime < p.age + delta)) ∧
    (∀ q, updateStreamParticle gravity delta s.targetPosition p = some q →
      q.age = p.age + delta ∧
      q ∈ (stepStream gravity delta maxParticles spawned s).particles) ∧
    (stepStream gravity delta maxParticles spawned s).particles =
      (if s.isActive ∧ s.particles.length < maxParticles / 10 then
          s.particles ++ spawned
        else s.particles).filterMap
        (updateStreamParticle gravity delta s.targetPosition) ∧
    (∀ r, updateSplashParticle gravity delta r = none ↔
      r.lifetime < r.age + delta) := by
  have hne : s.particles ≠ [] := fun h => by simp [h] at hp
  have hstep := stepStream_particles_eq gravity delta maxParticles spawned
    s hne
  refine ⟨?_, ?_, hstep, ?_⟩
  · simp only [updateStreamParticle]
    split_ifs with h1 h2
    · exact iff_of_true rfl (Or.inl h1)
    · exact iff_of_true rfl (Or.inr h2)
    · exact iff_of_false (by simp) (not_or.mpr ⟨h1, h2⟩)
  · intro q hq
    constructor
    · simp only [updateStreamParticle] at hq
      split_ifs at hq with h1 h2
      cases hq
      rfl
    · rw [hstep]
      refine List.mem_filterMap.mpr ⟨p, ?_, hq⟩
      split_ifs with hcond
      · exact List.mem_append_left _ hp
      · exact hp
  · intro r
    simp only [updateSplashParticle]
    split_ifs with h1
    · exact iff_of_true rfl h1
    · exact iff_of_false (by simp) h1

/-- Witness for the C6 theorem: a particle with lifetime 1.0 and age 0.95
advanced by a 0.1-second step is retired. -/
theorem streamParticle_retirement_witness :
    updateStreamParticle ⟨0, -10, 0⟩ (1/10) (⟨100, 0, 0⟩ : Vec3)
      ⟨"p0", ⟨0, 1, 0⟩, ⟨0, 0, 0⟩, "blue", 1/50, 1, 95/100, true⟩ = none := by
  have h := (streamParticle_retirement ⟨0, -10, 0⟩ (1/10) 500 []
    ⟨"stream-0", ⟨0, 2, 0⟩, ⟨100, 0, 0⟩, [⟨"p0", ⟨0, 1, 0⟩, ⟨0, 0, 0⟩,
      "blue", 1/50, 1, 95/100, true⟩], true, 1, "blue"⟩
    ⟨"p0", ⟨0, 1, 0⟩, ⟨0, 0, 0⟩, "blue", 1/50, 1, 95/100, true⟩
    (List.Mem.head _)).1
  exact h.mpr (Or.inr (by norm_num))

lemma updateSplashParticle_props (gravity : Vec3) (delta : ℚ)
    (p r : LiquidParticle)
    (h : updateSplashParticle gravity delta p = some r) :
    0 ≤ r.position.y ∧
    ((splashStepPosition gravity delta p).y < 0 →
      r.position.y = 0 ∧ r.velocity.y = 0 ∧
      r.velocity = Vec3.smul (1/2)
        ⟨(splashStepVelocity gravity delta p).x, 0,
          (splashStepVelocity gravity delta p).z⟩) := by
  by_cases hage : p.lifetime < p.age + delta
  · simp only [updateSplashParticle, if_pos hage] at h
    exact Option.noConfusion h
  · by_cases hg : (splashStepPosition gravity delta p).y < 0
    · simp only [updateSplashParticle, if_pos hg, if_neg hage] at h
      cases h
      refine ⟨le_refl 0, fun _ => ⟨rfl, ?_, rfl⟩⟩
      simp [Vec3.smul]
    · simp only [updateSplashParticle, if_neg hg, if_neg hage] at h
      cases h
      exact ⟨le_of_not_lt hg, fun hg2 => absurd hg2 hg⟩

/-- C7: every splash particle that survives a simulation step has
`y ≥ 0`: whenever the integrated position falls below the ground plane at
height 0, it is clamped to `y = 0`, the `y`-velocity is zeroed and the
velocity halved (restitution-like damping), so splash particles never end a
step below ground. -/
theorem splashParticle_ground_invariant (gravity : Vec3) (delta : ℚ)
    (ps : List LiquidParticle) (q : LiquidParticle)
    (hq : q ∈ stepSplashParticles gravity delta ps) :
    0 ≤ q.position.y ∧
    (∀ p ∈ ps, ∀ r, updateSplashParticle gravity delta p = some r →
      0 ≤ r.position.y ∧
      ((splashStepPosition gravity delta p).y < 0 →
        r.position.y = 0 ∧ r.velocity.y = 0 ∧
        r.velocity = Vec3.smul (1/2)
          ⟨(splashStepVelocity gravity delta p).x, 0,
            (splashStepVelocity gravity delta p).z⟩)) := by
  constructor
  · obtain ⟨p, _, hpq⟩ := List.mem_filterMap.mp hq
    exact (updateSplashParticle_props gravity delta p q hpq).1
  · intro p _ r hr
    exact updateSplashParticle_props gravity delta p r hr

/-- Witness for the C7 theorem: a splash particle integrated to
`y = -243/1000` is clamped to the ground and survives the step with
`y = 0 ≥ 0`. -/
theorem splashParticle_ground_invariant_witness :
    ((⟨"sp0", ⟨0, 0, 0⟩, ⟨0, 0, 0⟩, "blue", 1/100, 1, 1/10,
        true⟩ : LiquidParticle) ∈
      stepSplashParticles ⟨0, -10, 0⟩ (1/10)
        [⟨"sp0", ⟨0, 1/10, 0⟩, ⟨0, -2, 0⟩, "blue", 1/100, 1, 0, true⟩]) ∧
    (0 : ℚ) ≤ (⟨"sp0", ⟨0, 0, 0⟩, ⟨0, 0, 0⟩, "blue", 1/100, 1, 1/10,
      true⟩ : LiquidParticle).position.y := by
  have hmem : (⟨"sp0", ⟨0, 0, 0⟩, ⟨0, 0, 0⟩, "blue", 1/100, 1, 1/10,
      true⟩ : LiquidParticle) ∈
      stepSplashParticles ⟨0, -10, 0⟩ (1/10)
        [⟨"sp0", ⟨0, 1/10, 0⟩, ⟨0, -2, 0⟩, "blue", 1/100, 1, 0, true⟩] := by
    simp only [stepSplashParticles, List.filterMap]
    norm_num [updateSplashParticle, splashStepPosition, splashStepVelocity,
      Vec3.add, Vec3.smul]
  exact ⟨hmem, (splashParticle_ground_invariant ⟨0, -10, 0⟩ (1/10)
    [⟨"sp0", ⟨0, 1/10, 0⟩, ⟨0, -2, 0⟩, "blue", 1/100, 1, 0, true⟩]
    ⟨"sp0", ⟨0, 0, 0⟩, ⟨0, 0, 0⟩, "blue", 1/100, 1, 1/10, true⟩ hmem).1⟩

/-- C8 counterexample: the simulation step does not remove an inactive
stream with an empty particle set — stepping the one-element live list
leaves the stream in place. -/
theorem stepStreams_keeps_inactive_empty_stream :
    stepStreams ⟨0, -982/100, 0⟩ (1/60) 500 (fun _ => [])
      [⟨"stream-0", ⟨0, 0, 0⟩, ⟨1, 0, 0⟩, [], false, 1, "blue"⟩] =
      [⟨"stream-0", ⟨0, 0, 0⟩, ⟨1, 0, 0⟩, [], false, 1, "blue"⟩] := by
  simp [stepStreams, stepStream]

/-- C8 (amended): the simulation step does not remove an inactive stream
whose particle set is empty — it returns the stream unchanged, so the
stream stays in the live list; the stream is removed only by the delayed
pass of `stopPour` (a 3000 ms timer), which filters the live list by the
stream's id. -/
theorem inactive_empty_stream_kept_until_delayed_removal
    (gravity : Vec3) (delta : ℚ) (maxParticles : ℕ)
    (spawnFor : LiquidStream → List LiquidParticle)
    (streams : List LiquidStream) (s : LiquidStream)
    (hA : s.isActive = false) (hP : s.particles = []) :
    stepStream gravity delta maxParticles (spawnFor s) s = s ∧
    (s ∈ streams →
      s ∈ stepStreams gravity delta maxParticles spawnFor streams) ∧
    (∀ t ∈ removeStream s.id streams, t.id ≠ s.id) ∧
    s ∉ removeStream s.id streams := by
  have hstep : stepStream gravity delta maxParticles (spawnFor s) s = s := by
    unfold stepStream
    rw [if_pos (by simp [hA, hP])]
  refine ⟨hstep, ?_, ?_, ?_⟩
  · intro hmem
    have h2 : stepStream gravity delta maxParticles (spawnFor s) s ∈
        streams.map
          (fun t => stepStream gravity delta maxParticles (spawnFor t) t) :=
      List.mem_map_of_mem _ hmem
    rw [hstep] at h2
    exact h2
  · intro t ht
    have h3 := List.of_mem_filter ht
    simpa using h3
  · intro hmem
    have h4 := List.of_mem_filter hmem
    simp at h4

/-- Witness for the C8 theorem at a concrete inactive, empty stream. -/
theorem inactive_empty_stream_witness :
    stepStream ⟨0, -982/100, 0⟩ (1/60) 500 []
      ⟨"stream-0", ⟨0, 0, 0⟩, ⟨1, 0, 0⟩, [], false, 1, "blue"⟩ =
      ⟨"stream-0", ⟨0, 0, 0⟩, ⟨1, 0, 0⟩, [], false, 1, "blue"⟩ ∧
    (⟨"stream-0", ⟨0, 0, 0⟩, ⟨1, 0, 0⟩, [], false, 1,
      "blue"⟩ : LiquidStream) ∉ removeStream "stream-0"
        [⟨"stream-0", ⟨0, 0, 0⟩, ⟨1, 0, 0⟩, [], false, 1, "blue"⟩] := by
  have h := inactive_empty_stream_kept_until_delayed_removal
    ⟨0, -982/100, 0⟩ (1/60) 500 (fun _ => [])
    [⟨"stream-0", ⟨0, 0, 0⟩, ⟨1, 0, 0⟩, [], false, 1, "blue"⟩]
    ⟨"stream-0", ⟨0, 0, 0⟩, ⟨1, 0, 0⟩, [], false, 1, "blue"⟩ rfl rfl
  exact ⟨h.1, h.2.2.2⟩

lemma foldl_nearest_mem (l : List (ℚ × DragObject)) :
    ∀ (init : Option (ℚ × DragObject)) (r : ℚ × DragObject),
      l.foldl chooseNearest init = some r → r ∈ l ∨ init = some r := by
  induction l with
  | nil => intro init r h; exact Or.inr h
  | cons a t ih =>
      intro init r h
      simp only [List.foldl_cons] at h
      rcases ih _ r h with hm | he
      · exact Or.inl (List.mem_cons_of_mem _ hm)
      · cases init with
        | none =>
            simp only [chooseNearest] at he
            cases he
            exact Or.inl (List.mem_cons_self _ _)
        | some b =>
            simp only [chooseNearest] at he
            by_cases hlt : a.1 < b.1
            · rw [if_pos hlt] at he
              cases he
              exact Or.inl (List.mem_cons_self _ _)
            · rw [if_neg hlt] at he
              exact Or.inr he

lemma resolvePointer_mem (hit : DragObject → Option ℚ)
    (reg : List (String × DragObject)) (d : DragObject)
    (h : resolvePointer hit reg = some d) : ∃ p ∈ reg, p.2 = d := by
  unfold resolvePointer at h
  rcases Option.map_eq_some'.mp h with ⟨pr, hfold, hpr⟩
  rcases foldl_nearest_mem
      (reg.filterMap (fun p => (hit p.2).map (fun dist => (dist, p.2))))
      none pr hfold with hm | he
  · rcases List.mem_filterMap.mp hm with ⟨p, hp, hf⟩
    rcases Option.map_eq_some'.mp hf with ⟨dist, _, hdp⟩
    refine ⟨p, hp, ?_⟩
    rw [← hpr, ← hdp]
  · exact Option.noConfusion he

/-- C9: after `register(handle)` followed by `unregister(handle.id)` the
registry has no entry under that id, resolve-pointer (which casts the ray
only against currently registered handles) can never return that handle,
and `unregister` on an id that was never registered is a no-op. -/
theorem registry_register_unregister (reg : List (String × DragObject))
    (o : DragObject) (hit : DragObject → Option ℚ)
    (hw : ∀ p ∈ reg, p.1 = p.2.id)
    (unknownId : String) (hid : unknownId ∉ reg.map Prod.fst) :
    (unregisterObject (registerObject reg o) o.id).lookup o.id = none ∧
    (∀ d, resolvePointer hit (unregisterObject (registerObject reg o) o.id) =
      some d → d ≠ o) ∧
    unregisterObject reg unknownId = reg := by
  refine ⟨?_, ?_, ?_⟩
  · apply lookup_eq_none_of_no_key
    intro p hp
    have := List.of_mem_filter hp
    simpa using this
  · intro d hd
    rcases resolvePointer_mem hit _ d hd with ⟨p, hp, hpd⟩
    have hkey : p.1 ≠ o.id := by
      have := List.of_mem_filter hp
      simpa using this
    have hpreg : p ∈ registerObject reg o := List.mem_of_mem_filter hp
    have hwf : p.1 = p.2.id := by
      unfold registerObject at hpreg
      rcases List.mem_cons.mp hpreg with he | hmem
      · rw [he]
      · exact hw p (List.mem_of_mem_filter hmem)
    intro hdo
    apply hkey
    rw [hwf, hpd, hdo]
  · apply List.filter_eq_self.mpr
    intro p hp
    simp only [ne_eq, decide_not, Bool.not_eq_true', decide_eq_false_iff_not]
    intro he
    exact hid (he ▸ List.mem_map.mpr ⟨p, hp, rfl⟩)

/-- Witness for the C9 theorem: registering then unregistering an object on
an empty registry, and unregistering an unknown id. -/
theorem registry_register_unregister_witness :
    (unregisterObject (registerObject []
      ⟨"obj-1", ⟨0, 0, 0⟩, "equipment", ⟨0, 0, 0⟩, true, none⟩)
      "obj-1").lookup "obj-1" = none ∧
    unregisterObject [] "unknown-id" = [] := by
  have h := registry_register_unregister []
    ⟨"obj-1", ⟨0, 0, 0⟩, "equipment", ⟨0, 0, 0⟩, true, none⟩
    (fun _ => none) (by simp) "unknown-id" (by simp)
  exact ⟨h.1, h.2.2⟩

/-- C10 (implicit): `stopPour` on a stream id that is not in the live list
leaves the list unchanged — the inactive-marking pass matches no stream and
the delayed removal filter removes nothing — and it never errors. -/
theorem stopPour_unknown_id_noop (streamId : String)
    (streams : List LiquidStream)
    (h : streamId ∉ streams.map LiquidStream.id) :
    markStreamInactive streamId streams = streams ∧
    removeStream streamId streams = streams := by
  constructor
  · unfold markStreamInactive
    induction streams with
    | nil => rfl
    | cons s t ih =>
        simp only [List.map_cons, List.mem_cons, not_or] at h
        rw [List.map_cons, if_neg (fun he => h.1 he.symm), ih h.2]
  · apply List.filter_eq_self.mpr
    intro s hs
    simp only [ne_eq, decide_not, Bool.not_eq_true', decide_eq_false_iff_not]
    intro he
    exact h (he ▸ List.mem_map.mpr ⟨s, hs, rfl⟩)

/-- Witness for the C10 theorem: stopping a pour with an id absent from the
one-stream live list. -/
theorem stopPour_unknown_id_noop_witness :
    markStreamInactive "stream-1"
      [⟨"stream-0", ⟨0, 0, 0⟩, ⟨1, 0, 0⟩, [], true, 1, "blue"⟩] =
      [⟨"stream-0", ⟨0, 0, 0⟩, ⟨1, 0, 0⟩, [], true, 1, "blue"⟩] ∧
    removeStream "stream-1"
      [⟨"stream-0", ⟨0, 0, 0⟩, ⟨1, 0, 0⟩, [], true, 1, "blue"⟩] =
      [⟨"stream-0", ⟨0, 0, 0⟩, ⟨1, 0, 0⟩, [], true, 1, "blue"⟩] :=
  stopPour_unknown_id_noop "stream-1"
    [⟨"stream-0", ⟨0, 0, 0⟩, ⟨1, 0, 0⟩, [], true, 1, "blue"⟩] (by simp)
